import Mathlib

/-!
Verification development for the kysely-sqlite-tools repository.

Shallow embedding of:
* the schema model and the create-table sync routine
  (packages/sqlite-builder/src/types.ts, packages/sqlite-builder/src/util.ts),
* the table-definition helper of the sync subsystem (define.ts: defineTable, Column),
* the worker transport (packages/dialect-bun-worker/src/worker.ts and
  playground/src/modules/utils.ts: WaSqliteWorkerDriver, ConnectionMutex,
  WaSqliteWorkerConnection).

JavaScript is dynamically typed, so runtime string tags (column types, run
modes, query node kinds) are embedded as String.  Engine behaviour that lives
outside the repository (SQLite itself, bun:sqlite) is abstracted by oracles:
a DDL-failure oracle for the sync routine and a record of engine callbacks for
the worker.  Machine integers do not matter for any claim here.
-/

namespace KST

/-! ### Small JS value model and association lists (JS object property maps) -/

/-- Opaque JS runtime value, as far as the claims need to distinguish values. -/
inductive JsVal
  | str (s : String)
  | num (n : Int)
  | boolean (b : Bool)
deriving DecidableEq

/-- Lookup by key in an insertion-ordered property list (JS object). -/
def alookup {α : Type} (k : String) : List (String × α) → Option α
  | [] => none
  | (k', v) :: t => if k' = k then some v else alookup k t

/-! ### Schema model (packages/sqlite-builder/src/types.ts)

`ColumeOption` keeps the source spelling.  `type` is the runtime string tag
produced by `InferColumnType` (one of string / boolean / number / increments /
date / blob / object); being JS, any other string can flow through the switch
at runtime, so the field is a String.  `defaultTo` is opaque. -/

structure ColumeOption where
  type : String
  notNull : Bool := false
  defaultTo : Option JsVal := none
deriving DecidableEq

/-- A `keyof T | Array<keyof T>` value: a bare column name or an array. -/
inductive KeyOrKeys
  | one (k : String)
  | many (ks : List String)
deriving DecidableEq

/-- The expression `is ? x.join(_) : x` as used for the pk_/un_/idx_ names. -/
def keyName : KeyOrKeys → String
  | .one s => s
  | .many ks => String.intercalate "_" ks

/-- The expression `is ? x : [x]` as used for constraint and index column lists. -/
def keyCols : KeyOrKeys → List String
  | .one s => [s]
  | .many ks => ks

/-- The expression `is ? x[0] : x`; `[][0]` is JS undefined, rendered as the string
undefined like the template literal would. -/
def keyFirst : KeyOrKeys → String
  | .one s => s
  | .many ks => ks.headD "undefined"

/-- The table property `timestamp?: boolean | { create?: keyof T; update?: keyof T }`. -/
inductive TimestampOption
  | bool (b : Bool)
  | fields (create : Option String) (update : Option String)
deriving DecidableEq

/-- JS truthiness of the `timestamp` table property (`if (timestamp)`):
absent and `false` are falsy, any object is truthy. -/
def timestampTruthy : Option TimestampOption → Bool
  | none => false
  | some (.bool b) => b
  | some (.fields _ _) => true

/-- The name `(typeof timestamp === object && timestamp.create) || createAt`
(util.ts line 66); an empty string is falsy in JS. -/
def insNameOf : Option TimestampOption → String
  | some (.fields (some c) _) => if c = "" then "createAt" else c
  | _ => "createAt"

/-- The name `(typeof timestamp === object && timestamp.update) || updateAt`
(util.ts line 67). -/
def updNameOf : Option TimestampOption → String
  | some (.fields _ (some u)) => if u = "" then "updateAt" else u
  | _ => "updateAt"

/-- The `TableOption` type of types.ts. -/
structure TableOption where
  primary : Option KeyOrKeys := none
  unique : List KeyOrKeys := []
  index : List KeyOrKeys := []
  timestamp : Option TimestampOption := none
deriving DecidableEq

/-- The `ITable` type of types.ts: ordered column map plus optional properties. -/
structure ITable where
  columns : List (String × ColumeOption)
  property : Option TableOption := none
deriving DecidableEq

def primaryOf (t : ITable) : Option KeyOrKeys :=
  match t.property with
  | some p => p.primary
  | none => none

def uniqueOf (t : ITable) : List KeyOrKeys :=
  match t.property with
  | some p => p.unique
  | none => []

def indexOf (t : ITable) : List KeyOrKeys :=
  match t.property with
  | some p => p.index
  | none => []

def timestampOf (t : ITable) : Option TimestampOption :=
  match t.property with
  | some p => p.timestamp
  | none => none

/-- JS truthiness of the `primary` property (`if (... && primary)`,
`!primary`): absent is falsy, an empty string is falsy, arrays (even empty)
are truthy. -/
def primaryTruthy : Option KeyOrKeys → Bool
  | none => false
  | some (.one s) => !(s = "")
  | some (.many _) => true

/-! ### Physical column type normalization (util.ts lines 69-107)

The switch over `type` with initial value `let dataType = text`:
boolean / date / object / string map to text, increments falls through to
number mapping to integer, blob maps to blob, and any other runtime tag keeps
the initial text. -/

def dataTypeOf (type : String) : String :=
  if type = "boolean" || type = "date" || type = "object" || type = "string" then "text"
  else if type = "increments" || type = "number" then "integer"
  else if type = "blob" then "blob"
  else "text"

/-- One physical column of a generated CREATE TABLE statement. -/
structure ColDef where
  name : String
  dataType : String
  isAutoPrimary : Bool
  notNull : Bool
  defaultTo : Option JsVal
deriving DecidableEq

/-- The column builder callback (util.ts lines 94-107): increments becomes
autoIncrement().primaryKey() and ignores notNull / defaultTo; otherwise
notNull and defaultTo are applied when present. -/
def mkColDef (name : String) (opt : ColumeOption) : ColDef :=
  if opt.type = "increments" then
    { name := name, dataType := dataTypeOf opt.type,
      isAutoPrimary := true, notNull := false, defaultTo := none }
  else
    { name := name, dataType := dataTypeOf opt.type,
      isAutoPrimary := false, notNull := opt.notNull, defaultTo := opt.defaultTo }

/-- The `text` column added for a time-trigger timestamp field
(util.ts lines 110-113). -/
def textCol (name : String) : ColDef :=
  { name := name, dataType := "text", isAutoPrimary := false,
    notNull := false, defaultTo := none }

/-- Loop state of the column loop: `_triggerKey`, `_haveAutoKey`, and the
columns added so far. -/
structure BuildAcc where
  tk : String
  auto : Bool
  cols : List ColDef
deriving DecidableEq

/-- One iteration of the column loop (util.ts lines 69-108).  The switch runs
first (so an increments column always updates `_triggerKey`), then columns
named like the time-trigger fields are skipped (`continue`) before addColumn,
so only non-skipped increments columns set `_haveAutoKey`. -/
def columnStep (insName updName : String) (acc : BuildAcc) (e : String × ColumeOption) :
    BuildAcc :=
  let tk := if e.2.type = "increments" then e.1 else acc.tk
  if e.1 = insName || e.1 = updName then
    { tk := tk, auto := acc.auto, cols := acc.cols }
  else
    { tk := tk, auto := acc.auto || (e.2.type = "increments"),
      cols := acc.cols ++ [mkColDef e.1 e.2] }

def columnsAcc (t : ITable) : BuildAcc :=
  t.columns.foldl
    (columnStep (insNameOf (timestampOf t)) (updNameOf (timestampOf t)))
    { tk := "rowid", auto := false, cols := [] }

/-- The value of `_triggerKey` after the primary-key section (util.ts lines 115-119):
`if (!_haveAutoKey && primary) _triggerKey = is ? primary[0] : primary`. -/
def tkAfterPk (t : ITable) : String :=
  match primaryOf t with
  | some p =>
    if !(columnsAcc t).auto && primaryTruthy (some p) then keyFirst p else (columnsAcc t).tk
  | none => (columnsAcc t).tk

/-- Final `_triggerKey` after the unique-constraints forEach
(util.ts lines 121-125): each `u` overwrites the key with its first column
when there is neither a truthy primary nor an auto key. -/
def triggerKeyOf (t : ITable) : String :=
  (uniqueOf t).foldl
    (fun tk u =>
      if !primaryTruthy (primaryOf t) && !(columnsAcc t).auto then keyFirst u else tk)
    (tkAfterPk t)

/-- The addPrimaryKeyConstraint call (util.ts line 118), when taken. -/
def pkConstraintOf (t : ITable) : Option (String × List String) :=
  match primaryOf t with
  | some p =>
    if !(columnsAcc t).auto && primaryTruthy (some p) then
      some ("pk_" ++ keyName p, keyCols p)
    else none
  | none => none

/-- The addUniqueConstraint calls (util.ts line 124). -/
def uniqueConstraintsOf (t : ITable) : List (String × List String) :=
  (uniqueOf t).map (fun u => ("un_" ++ keyName u, keyCols u))

/-- Content of a generated CREATE TABLE statement. -/
structure TableDef where
  cols : List ColDef
  pk : Option (String × List String)
  uniques : List (String × List String)
deriving DecidableEq

/-- The full CREATE TABLE content for one declared table: the column loop,
then the two timestamp text columns when `timestamp` is truthy
(util.ts lines 110-113), then the constraints. -/
def tableDefOf (t : ITable) : TableDef :=
  { cols := (columnsAcc t).cols ++
      (if timestampTruthy (timestampOf t) then
        [textCol (insNameOf (timestampOf t)), textCol (updNameOf (timestampOf t))]
      else []),
    pk := pkConstraintOf t,
    uniques := uniqueConstraintsOf t }

/-! ### DDL statements, catalog, and execution (util.ts lines 14-35, 49-144)

The loop body of runCreateTable is straight-line awaited DDL; it is embedded
as the per-table statement list `stmtList` executed in order by `execStmts`.
An oracle says which statements the engine rejects.  Trigger creation is the
only statement whose rejection is caught (createTimeTrigger attaches
a catch handler that logs the error and returns undefined). -/

structure IndexDef where
  table : String
  cols : List String
deriving DecidableEq

/-- The SQL set-expression of the trigger body; the source emits
datetime(now, localtime), i.e. the current local timestamp. -/
inductive TimeExpr
  | localDatetime
deriving DecidableEq

/-- Content of a generated CREATE TRIGGER statement: on `table`, after
`event`, set `column` to `timeExpr` for the row whose `key` equals the new
row key. -/
structure TriggerDef where
  table : String
  event : String
  column : String
  key : String
  timeExpr : TimeExpr
deriving DecidableEq

def triggerDefOf (table event column key : String) : TriggerDef :=
  { table := table, event := event, column := column, key := key,
    timeExpr := TimeExpr.localDatetime }

/-- Trigger name `table_column` (util.ts line 23). -/
def triggerNameOf (table column : String) : String :=
  table ++ "_" ++ column

/-- One DDL statement issued by runCreateTable. -/
inductive PStmt
  | dropT (table : String)
  | createT (name : String) (d : TableDef)
  | createI (name : String) (d : IndexDef)
  | createTr (table : String) (event : String) (column : String) (key : String)
deriving DecidableEq

/-- Which statements the engine rejects (SQLite abstracted). -/
def Oracle : Type := PStmt → Bool

def noFail : Oracle := fun _ => false

/-- A schema change actually performed (an if-not-exists statement that hit
an existing name performs none). -/
inductive Op
  | droppedTable (n : String)
  | createdTable (n : String)
  | createdIndex (n : String)
  | createdTrigger (n : String)
deriving DecidableEq

/-- Live database catalog: tables, indexes and triggers by name. -/
structure Catalog where
  tables : List (String × TableDef)
  indexes : List (String × IndexDef)
  triggers : List (String × TriggerDef)
deriving DecidableEq

/-- DROP TABLE IF EXISTS: removes the table and (as SQLite does) its indexes
and triggers. -/
def dropFromCatalog (cat : Catalog) (tn : String) : Catalog :=
  { tables := cat.tables.filter (fun e => !(e.1 = tn)),
    indexes := cat.indexes.filter (fun e => !(e.2.table = tn)),
    triggers := cat.triggers.filter (fun e => !(e.2.table = tn)) }

/-- Result of running DDL: the catalog afterwards, the changes performed, and
the rejection the routine re-threw, if any (catalog changes made before a
failure persist, as in a real database). -/
structure RunOut where
  cat : Catalog
  ops : List Op
  err : Option String
deriving DecidableEq

/-- The statement `create trigger if not exists` without the catch: may reject. -/
def execTriggerRaw (o : Oracle) (cat : Catalog) (table event column key : String) : RunOut :=
  if o (.createTr table event column key) then
    { cat := cat, ops := [], err := some "TriggerCreationError" }
  else
    match alookup (triggerNameOf table column) cat.triggers with
    | some _ => { cat := cat, ops := [], err := none }
    | none =>
      { cat := { cat with triggers :=
          cat.triggers ++ [(triggerNameOf table column, triggerDefOf table event column key)] },
        ops := [Op.createdTrigger (triggerNameOf table column)],
        err := none }

/-- The `.catch` on the trigger execute: a rejection is logged and swallowed
and the promise resolves with undefined, leaving the catalog as it was. -/
def jsCatchRun (r : RunOut) (cat : Catalog) : RunOut :=
  match r.err with
  | some _ => { cat := cat, ops := [], err := none }
  | none => r

/-- createTimeTrigger (util.ts lines 14-35). -/
def createTimeTrigger (o : Oracle) (cat : Catalog) (table event column key : String) : RunOut :=
  jsCatchRun (execTriggerRaw o cat table event column key) cat

/-- Execution of one DDL statement against the catalog. -/
def execStmt (o : Oracle) (cat : Catalog) : PStmt → RunOut
  | .dropT tn =>
    if o (.dropT tn) then { cat := cat, ops := [], err := some "ExecutionError" }
    else if (alookup tn cat.tables).isSome then
      { cat := dropFromCatalog cat tn, ops := [Op.droppedTable tn], err := none }
    else { cat := cat, ops := [], err := none }
  | .createT n d =>
    if o (.createT n d) then { cat := cat, ops := [], err := some "ExecutionError" }
    else
      match alookup n cat.tables with
      | some _ => { cat := cat, ops := [], err := none }
      | none =>
        { cat := { cat with tables := cat.tables ++ [(n, d)] },
          ops := [Op.createdTable n], err := none }
  | .createI n d =>
    if o (.createI n d) then { cat := cat, ops := [], err := some "ExecutionError" }
    else
      match alookup n cat.indexes with
      | some _ => { cat := cat, ops := [], err := none }
      | none =>
        { cat := { cat with indexes := cat.indexes ++ [(n, d)] },
          ops := [Op.createdIndex n], err := none }
  | .createTr table event column key => createTimeTrigger o cat table event column key

/-- Sequential awaited execution; a rejection aborts the remaining
statements (the loop throws). -/
def execStmts (o : Oracle) (cat : Catalog) : List PStmt → RunOut
  | [] => { cat := cat, ops := [], err := none }
  | s :: rest =>
    let r := execStmt o cat s
    match r.err with
    | some e => { cat := r.cat, ops := r.ops, err := some e }
    | none =>
      let r2 := execStmts o r.cat rest
      { cat := r2.cat, ops := r.ops ++ r2.ops, err := r2.err }

/-- The DDL statements one iteration of the table loop issues, in source
order: optional drop, CREATE TABLE IF NOT EXISTS, CREATE INDEX IF NOT EXISTS
per index spec, and the two time triggers when `timestamp` is truthy. -/
def stmtList (dropTableBeforeInit : Bool) (tn : String) (t : ITable) : List PStmt :=
  (if dropTableBeforeInit then [PStmt.dropT tn] else [])
  ++ [PStmt.createT tn (tableDefOf t)]
  ++ (indexOf t).map (fun i => PStmt.createI ("idx_" ++ keyName i) { table := tn, cols := keyCols i })
  ++ (if timestampTruthy (timestampOf t) then
        [PStmt.createTr tn "insert" (insNameOf (timestampOf t)) (triggerKeyOf t),
         PStmt.createTr tn "update" (updNameOf (timestampOf t)) (triggerKeyOf t)]
      else [])

/-- All statements of a run, tables in map insertion order (util.ts 49-144). -/
def planOf (dropTableBeforeInit : Bool) (tm : List (String × ITable)) : List PStmt :=
  tm.flatMap (fun e => stmtList dropTableBeforeInit e.1 e.2)

/-- runCreateTable (util.ts lines 49-144). -/
def runCreateTable (o : Oracle) (tm : List (String × ITable))
    (dropTableBeforeInit : Bool) (cat : Catalog) : RunOut :=
  execStmts o cat (planOf dropTableBeforeInit tm)

/-! ### Specification-style view of the trigger WHERE key (for claim C3)

`specTriggerKey` restates, as a direct description, what the accumulated
`_triggerKey` assignments compute for sane schemas: the auto-increment column
when one is declared, else the first primary-key column when `primary` is
truthy, else the first column of the last declared unique constraint, else
rowid. -/

def isIncrements (e : String × ColumeOption) : Bool :=
  e.2.type = "increments"

/-- Name of the last column whose declared type is increments, if any. -/
def lastIncName : List (String × ColumeOption) → Option String
  | [] => none
  | e :: rest =>
    match lastIncName rest with
    | some c => some c
    | none => if isIncrements e then some e.1 else none

/-- First column of the last element of a unique-constraint list, with a
fallback when the list is empty. -/
def lastUniqueFirst (us : List KeyOrKeys) (dflt : String) : String :=
  match us with
  | [] => dflt
  | u :: rest => lastUniqueFirst rest (keyFirst u)

def specTriggerKey (t : ITable) : String :=
  match lastIncName t.columns with
  | some c => c
  | none =>
    match primaryOf t with
    | some p =>
      if primaryTruthy (some p) then keyFirst p
      else lastUniqueFirst (uniqueOf t) "rowid"
    | none => lastUniqueFirst (uniqueOf t) "rowid"

/-- Sanity condition for the amended claim C3: at most one auto-increment
column, and it is not named like a time-trigger column (so it is not skipped
by the continue in the column loop). -/
def saneIncrements (t : ITable) : Bool :=
  match t.columns.filter isIncrements with
  | [] => true
  | [e] => !(e.1 = insNameOf (timestampOf t) || e.1 = updNameOf (timestampOf t))
  | _ => false

/-! ### Concrete example schemas (playground/src/modules/utils.ts and
counterexample inputs) -/

/-- The playground schema: table test with id increments, name string,
blobtest blob, timestamp triggers on create and update. -/
def playgroundTable : ITable :=
  { columns :=
      [("id", { type := "increments" }),
       ("name", { type := "string" }),
       ("blobtest", { type := "blob" })],
    property := some { timestamp := some (TimestampOption.bool true) } }

/-- A table with no primary key but a composite unique constraint, used to
settle the WHERE-key clause of claim C3. -/
def uniqueOnlyTable : ITable :=
  { columns := [("a", { type := "string" })],
    property := some
      { unique := [KeyOrKeys.many ["u1", "u2"]],
        timestamp := some (TimestampOption.bool true) } }

/-- The oracle that rewrites any oracle to never fail trigger creation,
leaving every other DDL statement alone. -/
def noTrigFail (o : Oracle) : Oracle := fun s =>
  match s with
  | .createTr _ _ _ _ => false
  | s' => o s'

/-- Statements that are not trigger creations (those whose failures the
routine does not catch). -/
def nonTrigger : PStmt → Bool
  | .createTr _ _ _ _ => false
  | _ => true

def isDrop : PStmt → Bool
  | .dropT _ => true
  | _ => false

/-- Decidable presence check: does the catalog already contain the object
this create statement would create (drop statements are vacuous)? -/
def ensured (cat : Catalog) : PStmt → Bool
  | .dropT _ => true
  | .createT n _ => (alookup n cat.tables).isSome
  | .createI n _ => (alookup n cat.indexes).isSome
  | .createTr table _ column _ => (alookup (triggerNameOf table column) cat.triggers).isSome

/-! ### Connection mutex (playground/src/modules/utils.ts lines 150-172)

The driver serializes use of its single connection with ConnectionMutex:
`lock()` loops `while (this.promise) await this.promise` and then installs a
fresh promise; `unlock()` clears the promise and resolves the old one, waking
every waiter registered on it.  The model is a small-step system over client
coroutines: `lock` runs the synchronous check (acquire when free, otherwise
register on the current promise), `unlock` resolves the current promise
turning its waiters runnable, and `wake` lets a runnable waiter rerun the
check.  Promise identities are numbered by `nextP`. -/

inductive ClientSt
  | outside
  | waiting (p : Nat)
  | runnable
  | holding
deriving DecidableEq

structure MuSt where
  cur : Option Nat
  nextP : Nat
  clients : Nat → ClientSt

def setClient (f : Nat → ClientSt) (c : Nat) (v : ClientSt) : Nat → ClientSt :=
  fun n => if n = c then v else f n

/-- The synchronous body of lock(): zero loop iterations and acquisition when
the promise is free, otherwise one await on the current promise. -/
def tryAcquire (s : MuSt) (c : Nat) : MuSt :=
  match s.cur with
  | some p => { s with clients := setClient s.clients c (ClientSt.waiting p) }
  | none =>
    { cur := some s.nextP, nextP := s.nextP + 1,
      clients := setClient s.clients c ClientSt.holding }

inductive MuAct
  | lock (c : Nat)
  | unlock (c : Nat)
  | wake (c : Nat)
deriving DecidableEq

/-- One step of the mutex system; none when the action is not enabled. -/
def muStep (s : MuSt) : MuAct → Option MuSt
  | .lock c =>
    if s.clients c = ClientSt.outside then some (tryAcquire s c) else none
  | .wake c =>
    if s.clients c = ClientSt.runnable then some (tryAcquire s c) else none
  | .unlock c =>
    if s.clients c = ClientSt.holding then
      match s.cur with
      | some p =>
        some { cur := none, nextP := s.nextP,
               clients := setClient
                 (fun n => if s.clients n = ClientSt.waiting p then ClientSt.runnable
                           else s.clients n)
                 c ClientSt.outside }
      | none => some { s with clients := setClient s.clients c ClientSt.outside }
    else none

def runTrace (s : MuSt) : List MuAct → Option MuSt
  | [] => some s
  | a :: rest =>
    match muStep s a with
    | some s' => runTrace s' rest
    | none => none

def muInit : MuSt :=
  { cur := none, nextP := 0, clients := fun _ => ClientSt.outside }

/-! ### Transport driver lifecycle (playground/src/modules/utils.ts 72-204)

What claim C8 turns on: WaSqliteWorkerConnection captures the emitter in its
own readonly `mitt` field at construction; `destroy()` clears only the DRIVER
field `this.mitt` (and `mitt.all.clear()` removes every registered handler,
and the worker is terminated), so the guard `if (!this.mitt) reject(...)` in
executeQuery tests the untouched connection field.  `handlers` is the set of
event types with a once-handler registered on the shared emitter. -/

inductive PromiseSt
  | pending
  | rejectedDestroyed
  | settledByResponse
deriving DecidableEq

structure TransportSt where
  workerAlive : Bool
  handlers : List String
  driverMitt : Bool
  connMitt : Bool
  runPromise : Option PromiseSt
deriving DecidableEq

/-- State right after driver.init() resolves: worker running, emitter
referenced from both the driver and the connection, no query in flight. -/
def tInit : TransportSt :=
  { workerAlive := true, handlers := [], driverMitt := true, connMitt := true,
    runPromise := none }

inductive TAct
  | execQuery
  | workerRun
  | destroyDrv
deriving DecidableEq

/-- One step of the transport lifecycle, tracking a single run request.
executeQuery posts the message and installs the promise executor: reject
immediately when the CONNECTION has no emitter reference, else register a
once-handler for run.  workerRun is the worker emitting the run response
(only possible while the worker lives).  destroyDrv is a completed destroy():
close round-trip, worker.terminate(), mitt.all.clear(), driver mitt cleared;
the connection field is untouched, exactly as in the source. -/
def tStep (s : TransportSt) : TAct → Option TransportSt
  | .execQuery =>
    match s.runPromise with
    | some _ => none
    | none =>
      if s.connMitt then
        some { s with handlers := s.handlers ++ ["run"], runPromise := some PromiseSt.pending }
      else
        some { s with runPromise := some PromiseSt.rejectedDestroyed }
  | .workerRun =>
    if s.workerAlive then
      if s.handlers.contains "run" then
        some { s with
                 handlers := List.erase s.handlers "run",
                 runPromise :=
                   (match s.runPromise with
                    | some PromiseSt.pending => some PromiseSt.settledByResponse
                    | x => x) }
      else some s
    else none
  | .destroyDrv =>
    if s.workerAlive && s.driverMitt then
      some { s with workerAlive := false, handlers := [], driverMitt := false }
    else none

def runTraceT (s : TransportSt) : List TAct → Option TransportSt
  | [] => some s
  | a :: rest =>
    match tStep s a with
    | some s' => runTraceT s' rest
    | none => none

/-- The state reached by init, then a query left in flight, then destroy. -/
def afterDestroy : TransportSt :=
  { workerAlive := false, handlers := [], driverMitt := false, connMitt := true,
    runPromise := some PromiseSt.pending }

/-! ### Worker engine (packages/dialect-bun-worker/src/worker.ts)

bun:sqlite is abstracted: `exec` is prepare-plus-execute of one statement
returning its rows and the next engine state (used for both stmt.all and
stmt.run), `lastInsertRowid` and `changes` are the two read-back SELECTs,
`openDb` and `closeDb` the Database constructor and close. -/

structure SqliteEngine (σ : Type) where
  exec : σ → String → List JsVal → Except String (σ × List (List JsVal))
  lastInsertRowid : σ → Int
  changes : σ → Int
  openDb : String → Except String σ
  closeDb : σ → Except String Unit

/-- Result object posted back for a run request.  Mode query returns only
`rows`; other modes add insertId and numAffectedRows. -/
structure QueryResult where
  rows : List (List JsVal)
  insertId : Option Int := none
  numAffectedRows : Option Int := none
deriving DecidableEq

/-- The worker function run(mode, sql, parameters) (worker.ts lines 7-26):
unless mode is exec, materialize rows with stmt.all (executing the
statement); when mode is query return just the rows; otherwise execute the
statement AGAIN with stmt.run and read back last_insert_rowid and changes. -/
def runFn {σ : Type} (eng : SqliteEngine σ) (mode sql : String) (params : List JsVal)
    (s : σ) : Except String (QueryResult × σ) :=
  let firstStep : Except String (List (List JsVal) × σ) :=
    if mode ≠ "exec" then
      match eng.exec s sql params with
      | .error e => .error e
      | .ok (s1, rows) => .ok (rows, s1)
    else .ok ([], s)
  match firstStep with
  | .error e => .error e
  | .ok (rows, s1) =>
    if mode = "query" then
      .ok ({ rows := rows }, s1)
    else
      match eng.exec s1 sql params with
      | .error e => .error e
      | .ok (s2, _) =>
        .ok ({ rows := rows,
               insertId := some (eng.lastInsertRowid s2),
               numAffectedRows := some (eng.changes s2) }, s2)

/-- Inbound transport message (MainMsg of the worker). -/
inductive MainMsg
  | initMsg (url : String) (cache : Bool)
  | runMsg (mode : String) (sql : String) (parameters : List JsVal)
  | closeMsg
deriving DecidableEq

def msgType : MainMsg → String
  | .initMsg _ _ => "init"
  | .runMsg _ _ _ => "run"
  | .closeMsg => "close"

/-- Worker-local mutable state: the module-level `db` and `cache` bindings. -/
structure WorkerSt (σ : Type) where
  db : Option σ
  cache : Bool

/-- Outbound transport message: `{type, data, err}`. -/
structure WorkerMsg where
  type : String
  data : Option QueryResult
  err : Option String
deriving DecidableEq

/-- The switch inside the try block of onmessage (worker.ts lines 36-47);
touching an unassigned `db` throws a TypeError. -/
def handleMsg {σ : Type} (eng : SqliteEngine σ) (st : WorkerSt σ) :
    MainMsg → Except String (Option QueryResult × WorkerSt σ)
  | .runMsg mode sql ps =>
    match st.db with
    | none => .error "TypeError: db is undefined"
    | some s =>
      match runFn eng mode sql ps s with
      | .error e => .error e
      | .ok (res, s') => .ok (some res, { st with db := some s' })
  | .closeMsg =>
    match st.db with
    | none => .error "TypeError: db is undefined"
    | some s =>
      match eng.closeDb s with
      | .error e => .error e
      | .ok _ => .ok (none, st)
  | .initMsg url c =>
    match eng.openDb url with
    | .error e => .error e
    | .ok s => .ok (none, { db := some s, cache := c })

def isErr {ε α : Type} : Except ε α → Bool
  | .error _ => true
  | .ok _ => false

/-- The onmessage handler (worker.ts lines 28-52): builds
`{type: data.type, data: null, err: null}`, fills data on success, fills err
in the catch, and posts exactly this one message back. -/
def onmessage {σ : Type} (eng : SqliteEngine σ) (st : WorkerSt σ) (m : MainMsg) :
    WorkerMsg × WorkerSt σ :=
  match handleMsg eng st m with
  | .ok (d, st') => ({ type := msgType m, data := d, err := none }, st')
  | .error e => ({ type := msgType m, data := none, err := some e }, st)

/-- Outgoing run-mode classification of executeQuery
(playground/src/modules/utils.ts lines 188-192). -/
def modeOf (kind : String) : String :=
  if kind = "SelectQueryNode" then "query"
  else if kind = "RawNode" then "raw"
  else "exec"

/-! ### defineTable of the sync subsystem (define.ts, src/unnamed/part_000)

defineTable assigns the trigger-managed timestamp columns ONTO the
caller-supplied `columns` object (`columns.createAt = options` and friends)
and returns a table object whose `columns` field aliases that same object.
The heap effect is embedded by returning, next to the table value, the state
`callerColumns` of the object the caller passed in; the returned table's
columns field is that same value. -/

/-- The sentinel TGR marking a trigger-managed timestamp default. -/
def TGR : JsVal := JsVal.str "__TIME_TRIGGER__"

/-- A column property object of the sync define API; `type` tags include
string / int / float / blob / increments / boolean / date / object. -/
structure ColumnProp where
  type : String
  defaultTo : Option JsVal := none
  notNull : Option JsVal := none
deriving DecidableEq

/-- Column.Float of define.ts: `base(float, defaultTo)`. -/
def columnFloat (defaultTo : Option JsVal) : ColumnProp :=
  { type := "float", defaultTo := defaultTo, notNull := none }

/-- The object `options = { type: date, defaultTo: TGR }` of defineTable. -/
def dateOptions : ColumnProp :=
  { type := "date", defaultTo := some TGR, notNull := none }

/-- The update-column variant `{ ...options, notNull: 0 }`. -/
def updateOptions : ColumnProp :=
  { type := "date", defaultTo := some TGR, notNull := some (JsVal.num 0) }

/-- A timeTrigger field value: `true` or a custom column name. -/
inductive TriggerColumn
  | tru
  | name (s : String)
deriving DecidableEq

structure TimeTriggerOptions where
  create : Option TriggerColumn := none
  update : Option TriggerColumn := none
deriving DecidableEq

/-- JS property assignment `obj[k] = v`: overwrite in place when the key
exists, else append preserving insertion order. -/
def setProp (cols : List (String × ColumnProp)) (k : String) (v : ColumnProp) :
    List (String × ColumnProp) :=
  if (alookup k cols).isSome then
    cols.map (fun e => if e.1 = k then (k, v) else e)
  else cols ++ [(k, v)]

/-- The create branch: `if (create === true) columns.createAt = options;
else if (create) columns[create] = options` (an empty string is falsy). -/
def applyCreate (cols : List (String × ColumnProp)) (c : Option TriggerColumn) :
    List (String × ColumnProp) :=
  match c with
  | some TriggerColumn.tru => setProp cols "createAt" dateOptions
  | some (TriggerColumn.name s) => if s = "" then cols else setProp cols s dateOptions
  | none => cols

/-- The update branch, assigning `{ ...options, notNull: 0 }`. -/
def applyUpdate (cols : List (String × ColumnProp)) (u : Option TriggerColumn) :
    List (String × ColumnProp) :=
  match u with
  | some TriggerColumn.tru => setProp cols "updateAt" updateOptions
  | some (TriggerColumn.name s) => if s = "" then cols else setProp cols s updateOptions
  | none => cols

/-- The table value defineTable returns (the property fields other than
timeTrigger pass through unchanged and are omitted here). -/
structure DefinedTable where
  columns : List (String × ColumnProp)
  timeTrigger : Option TimeTriggerOptions
deriving DecidableEq

/-- Result of a defineTable call together with the final state of the very
object the caller passed as `columns` (mutated in place by the source). -/
structure DefineOutcome where
  table : DefinedTable
  callerColumns : List (String × ColumnProp)
deriving DecidableEq

/-- defineTable (define.ts lines 35-65). -/
def defineTable (columns : List (String × ColumnProp)) (tt : Option TimeTriggerOptions) :
    DefineOutcome :=
  let c := match tt with | some o => o.create | none => none
  let u := match tt with | some o => o.update | none => none
  let cols := applyUpdate (applyCreate columns c) u
  { table := { columns := cols, timeTrigger := tt }, callerColumns := cols }

/-! ### Auxiliary definitions used by the proofs and witnesses -/

/-- The error an execStmt produces, read off the statement alone: catalog
content never decides success, and trigger rejections are swallowed. -/
def stmtErr (o : Oracle) : PStmt → Option String
  | .createTr _ _ _ _ => none
  | s => if o s then some "ExecutionError" else none

/-- Catalog growth: every component is extended on the right. -/
def catGrows (c1 c2 : Catalog) : Prop :=
  (∃ l, c2.tables = c1.tables ++ l)
  ∧ (∃ l, c2.indexes = c1.indexes ++ l)
  ∧ (∃ l, c2.triggers = c1.triggers ++ l)

/-- Mutex safety invariant: at most one holder, and none while unlocked. -/
def MuInv (s : MuSt) : Prop :=
  (∀ i j, s.clients i = ClientSt.holding → s.clients j = ClientSt.holding → i = j)
  ∧ (s.cur = none → ∀ i, s.clients i ≠ ClientSt.holding)

/-- The barging trace: client 0 acquires, client 1 queues, client 0
releases, and client 2 calls lock before client 1 is woken. -/
def muBargeTrace : List MuAct :=
  [MuAct.lock 0, MuAct.lock 1, MuAct.unlock 0, MuAct.lock 2]

/-- A trivial engine whose open fails, for exercising the worker error
path. -/
def engW : SqliteEngine Unit :=
  { exec := fun s _ _ => Except.ok (s, []),
    lastInsertRowid := fun _ => 0,
    changes := fun _ => 0,
    openDb := fun _ => Except.error "open failed",
    closeDb := fun _ => Except.ok () }

/-- A counting engine: every execution of a statement increments the state,
so the state counts how many times side effects were applied. -/
def engCount : SqliteEngine Nat :=
  { exec := fun s _ _ => Except.ok (s + 1, [[JsVal.num (Int.ofNat s)]]),
    lastInsertRowid := fun s => Int.ofNat s,
    changes := fun s => Int.ofNat s,
    openDb := fun _ => Except.ok 0,
    closeDb := fun _ => Except.ok () }

/-- Example column map for the defineTable witness. -/
def exCols : List (String × ColumnProp) :=
  [("id", { type := "increments" }), ("name", { type := "string" })]

/-! ## Theorems -/

/-! ### Association list lemmas -/

theorem alookup_append {α : Type} (k : String) (l1 l2 : List (String × α)) :
    alookup k (l1 ++ l2) =
      match alookup k l1 with
      | some v => some v
      | none => alookup k l2 := by
  induction l1 with
  | nil => simp [alookup]
  | cons e t ih =>
    by_cases h : e.1 = k
    · simp [alookup, h]
    · simp [alookup, h, ih]

theorem alookup_append_of_isSome {α : Type} (k : String) (l1 l2 : List (String × α))
    (h : (alookup k l1).isSome = true) :
    alookup k (l1 ++ l2) = alookup k l1 := by
  rw [alookup_append]
  cases hv : alookup k l1 with
  | some v => rfl
  | none => rw [hv] at h; simp at h

theorem alookup_append_self {α : Type} (k : String) (l : List (String × α)) (v : α)
    (h : alookup k l = none) :
    alookup k (l ++ [(k, v)]) = some v := by
  rw [alookup_append, h]
  simp [alookup]

theorem alookup_isSome_mono {α : Type} (k : String) (l1 l2 : List (String × α))
    (h : (alookup k l1).isSome = true) :
    (alookup k (l1 ++ l2)).isSome = true := by
  rw [alookup_append_of_isSome k l1 l2 h]; exact h

/-! ### Claim C4: physical type normalization -/

/-- Claim C4 counterexample: the claim says real (float) columns become
real, but the create-table switch has no real case; the float tag declared
by Column.Float falls to the initial text, so no declared column ever gets
physical type real. -/
theorem c4_counterexample :
    dataTypeOf (columnFloat none).type = "text" ∧ ("text" : String) ≠ "real" := by
  exact ⟨rfl, by decide⟩

/-- Claim C4 (amended): the generated physical type always lies in the
three-way space text / integer / blob; string, boolean, date and object
columns become text; number and auto-increment columns become integer; blob
becomes blob; and every other declared type tag (including float, the tag of
Column.Float) becomes text.  The routine never emits real. -/
theorem c4_amended_types : ∀ t : String,
    (dataTypeOf t = "text" ∨ dataTypeOf t = "integer" ∨ dataTypeOf t = "blob")
    ∧ ((t = "string" ∨ t = "boolean" ∨ t = "date" ∨ t = "object") → dataTypeOf t = "text")
    ∧ ((t = "number" ∨ t = "increments") → dataTypeOf t = "integer")
    ∧ (t = "blob" → dataTypeOf t = "blob")
    ∧ ((t ≠ "number" ∧ t ≠ "increments" ∧ t ≠ "blob") → dataTypeOf t = "text") := by
  intro t
  unfold dataTypeOf
  refine ⟨?_, ?_, ?_, ?_, ?_⟩
  · split_ifs <;> simp
  · intro h
    rcases h with h | h | h | h <;> subst h <;> rfl
  · intro h
    rcases h with h | h <;> subst h <;> rfl
  · intro h; subst h; rfl
  · intro h
    obtain ⟨h1, h2, h3⟩ := h
    split_ifs <;> simp_all

/-- Claim C4 witness at the concrete tag float. -/
theorem c4_amended_types_witness :
    (("float" : String) ≠ "number" ∧ ("float" : String) ≠ "increments"
      ∧ ("float" : String) ≠ "blob")
    ∧ dataTypeOf "float" = "text" := by
  refine ⟨by decide, (c4_amended_types "float").2.2.2.2 (by decide)⟩

/-! ### Claim C6: worker response shape -/

/-- Claim C6: for every inbound request the worker posts back exactly one
response (onmessage returns precisely one WorkerMsg), its type equals the
request type, err is non-null exactly when the handler threw, and in the
thrown case data is null. -/
theorem c6_response_shape :
    ∀ (σ : Type) (eng : SqliteEngine σ) (st : WorkerSt σ) (m : MainMsg),
      ((onmessage eng st m).1.type = msgType m)
      ∧ ((onmessage eng st m).1.err.isSome = isErr (handleMsg eng st m))
      ∧ ((onmessage eng st m).1.err.isSome = true → (onmessage eng st m).1.data = none) := by
  intro σ eng st m
  cases h : handleMsg eng st m with
  | ok v =>
    obtain ⟨d, st'⟩ := v
    simp [onmessage, h, isErr]
  | error e =>
    simp [onmessage, h, isErr]

/-- Claim C6 witness: a failing init produces err non-null and data null. -/
theorem c6_response_shape_witness :
    ((onmessage engW { db := none, cache := false } (MainMsg.initMsg "db" false)).1.err.isSome
      = true)
    ∧ ((onmessage engW { db := none, cache := false } (MainMsg.initMsg "db" false)).1.data
      = none) :=
  ⟨rfl,
   (c6_response_shape Unit engW { db := none, cache := false } (MainMsg.initMsg "db" false)).2.2
     rfl⟩

/-! ### Claim C7: run-mode dispatch and materialization -/

/-- Claim C7: the outgoing mode is determined solely by the query node kind
(SelectQueryNode to query, RawNode to raw, everything else to exec); the
worker materializes only rows in query mode, and in exec mode materializes
no rows while reporting insert id and affected rows. -/
theorem c7_mode_dispatch :
    modeOf "SelectQueryNode" = "query" ∧ modeOf "RawNode" = "raw"
    ∧ (∀ k : String, k ≠ "SelectQueryNode" → k ≠ "RawNode" → modeOf k = "exec")
    ∧ (∀ (σ : Type) (eng : SqliteEngine σ) (sql : String) (ps : List JsVal) (s s1 : σ)
        (rows : List (List JsVal)),
        eng.exec s sql ps = Except.ok (s1, rows) →
        runFn eng "query" sql ps s =
          Except.ok ({ rows := rows, insertId := none, numAffectedRows := none }, s1))
    ∧ (∀ (σ : Type) (eng : SqliteEngine σ) (sql : String) (ps : List JsVal) (s s1 : σ)
        (rows : List (List JsVal)),
        eng.exec s sql ps = Except.ok (s1, rows) →
        runFn eng "exec" sql ps s =
          Except.ok ({ rows := [], insertId := some (eng.lastInsertRowid s1),
                       numAffectedRows := some (eng.changes s1) }, s1)) := by
  refine ⟨rfl, rfl, ?_, ?_, ?_⟩
  · intro k h1 h2
    simp [modeOf, h1, h2]
  · intro σ eng sql ps s s1 rows h
    simp [runFn, h]
  · intro σ eng sql ps s s1 rows h
    simp [runFn, h]

/-- Claim C7 witness on the counting engine. -/
theorem c7_mode_dispatch_witness :
    modeOf "InsertQueryNode" = "exec"
    ∧ runFn engCount "query" "select" [] 0 =
        Except.ok ({ rows := [[JsVal.num 0]], insertId := none, numAffectedRows := none }, 1)
    ∧ runFn engCount "exec" "insert" [] 0 =
        Except.ok ({ rows := [], insertId := some 1, numAffectedRows := some 1 }, 1) :=
  ⟨c7_mode_dispatch.2.2.1 "InsertQueryNode" (by decide) (by decide),
   c7_mode_dispatch.2.2.2.1 Nat engCount "select" [] 0 1 [[JsVal.num 0]] rfl,
   c7_mode_dispatch.2.2.2.2 Nat engCount "insert" [] 0 1 [[JsVal.num 0]] rfl⟩

/-! ### Claim C10: raw mode executes the statement twice -/

/-- Claim C10: in raw mode the worker executes the statement once through
stmt.all (materializing rows), then AGAIN through stmt.run, so the final
engine state is the result of two executions; the response carries the
first-execution rows plus insertId and numAffectedRows read after the second
execution. -/
theorem c10_raw_double_execution :
    ∀ (σ : Type) (eng : SqliteEngine σ) (sql : String) (ps : List JsVal)
      (s s1 s2 : σ) (rows1 rows2 : List (List JsVal)),
      eng.exec s sql ps = Except.ok (s1, rows1) →
      eng.exec s1 sql ps = Except.ok (s2, rows2) →
      runFn eng "raw" sql ps s =
        Except.ok ({ rows := rows1, insertId := some (eng.lastInsertRowid s2),
                     numAffectedRows := some (eng.changes s2) }, s2) := by
  intro σ eng sql ps s s1 s2 rows1 rows2 h1 h2
  simp [runFn, h1, h2]

/-- Claim C10 witness: on the counting engine a raw request advances the
state from 0 to 2 in one request, i.e. side effects are applied twice. -/
theorem c10_raw_double_execution_witness :
    engCount.exec 0 "insert" [] = Except.ok (1, [[JsVal.num 0]])
    ∧ runFn engCount "raw" "insert" [] 0 =
        Except.ok ({ rows := [[JsVal.num 0]], insertId := some 2,
                     numAffectedRows := some 2 }, 2) :=
  ⟨rfl,
   c10_raw_double_execution Nat engCount "insert" [] 0 1 2 [[JsVal.num 0]] [[JsVal.num 1]]
     rfl rfl⟩

/-! ### Claim C9: defineTable mutates the caller columns object in place -/

/-- Claim C9: with a timeTrigger configured, defineTable assigns the
trigger-managed date columns (type date, defaultTo the TGR sentinel, the
update one additionally notNull 0) onto the very object the caller passed,
appending them under createAt / updateAt or the configured custom names; the
returned table's columns field is that same object; with no timeTrigger
configured the caller object is left unchanged. -/
theorem c9_define_table_mutation :
    (∀ cols : List (String × ColumnProp), (defineTable cols none).callerColumns = cols)
    ∧ (∀ cols : List (String × ColumnProp),
        (defineTable cols (some { create := none, update := none })).callerColumns = cols)
    ∧ (∀ cols : List (String × ColumnProp),
        alookup "createAt" cols = none → alookup "updateAt" cols = none →
        (defineTable cols
            (some { create := some TriggerColumn.tru,
                    update := some TriggerColumn.tru })).callerColumns
          = cols ++ [("createAt", dateOptions), ("updateAt", updateOptions)])
    ∧ (∀ (cols : List (String × ColumnProp)) (c u : String),
        c ≠ "" → u ≠ "" → c ≠ u → alookup c cols = none → alookup u cols = none →
        (defineTable cols
            (some { create := some (TriggerColumn.name c),
                    update := some (TriggerColumn.name u) })).callerColumns
          = cols ++ [(c, dateOptions), (u, updateOptions)])
    ∧ (∀ (cols : List (String × ColumnProp)) (tt : Option TimeTriggerOptions),
        (defineTable cols tt).table.columns = (defineTable cols tt).callerColumns)
    ∧ dateOptions.type = "date" ∧ dateOptions.defaultTo = some TGR
    ∧ updateOptions.type = "date" ∧ updateOptions.defaultTo = some TGR := by
  refine ⟨fun cols => rfl, fun cols => rfl, ?_, ?_, fun cols tt => rfl, rfl, rfl, rfl, rfl⟩
  · intro cols h1 h2
    have e1 : applyCreate cols (some TriggerColumn.tru)
        = cols ++ [("createAt", dateOptions)] := by
      simp [applyCreate, setProp, h1]
    have hu : alookup "updateAt" (cols ++ [("createAt", dateOptions)]) = none := by
      rw [alookup_append, h2]; simp [alookup]
    have e2 : applyUpdate (cols ++ [("createAt", dateOptions)]) (some TriggerColumn.tru)
        = cols ++ [("createAt", dateOptions), ("updateAt", updateOptions)] := by
      simp [applyUpdate, setProp, hu]
    show applyUpdate (applyCreate cols (some TriggerColumn.tru)) (some TriggerColumn.tru)
        = cols ++ [("createAt", dateOptions), ("updateAt", updateOptions)]
    rw [e1, e2]
  · intro cols c u hc hu hcu h1 h2
    have e1 : applyCreate cols (some (TriggerColumn.name c)) = cols ++ [(c, dateOptions)] := by
      simp [applyCreate, setProp, h1, hc]
    have hu2 : alookup u (cols ++ [(c, dateOptions)]) = none := by
      rw [alookup_append, h2]; simp [alookup, hcu]
    have e2 : applyUpdate (cols ++ [(c, dateOptions)]) (some (TriggerColumn.name u))
        = cols ++ [(c, dateOptions), (u, updateOptions)] := by
      simp [applyUpdate, setProp, hu2, hu]
    show applyUpdate (applyCreate cols (some (TriggerColumn.name c)))
        (some (TriggerColumn.name u))
        = cols ++ [(c, dateOptions), (u, updateOptions)]
    rw [e1, e2]

/-- Claim C9 witness on a concrete two-column map. -/
theorem c9_define_table_mutation_witness :
    (alookup "createAt" exCols = none ∧ alookup "updateAt" exCols = none)
    ∧ (defineTable exCols
        (some { create := some TriggerColumn.tru,
                update := some TriggerColumn.tru })).callerColumns
      = exCols ++ [("createAt", dateOptions), ("updateAt", updateOptions)] :=
  ⟨⟨rfl, rfl⟩, c9_define_table_mutation.2.2.1 exCols rfl rfl⟩

/-! ### Claim C2: trigger creation failures are swallowed -/

theorem createTimeTrigger_err (o : Oracle) (cat : Catalog) (table event column key : String) :
    (createTimeTrigger o cat table event column key).err = none := by
  unfold createTimeTrigger jsCatchRun
  cases h : (execTriggerRaw o cat table event column key).err with
  | some e => simp [h]
  | none => simp [h]

theorem execStmt_err (o : Oracle) (cat : Catalog) (s : PStmt) :
    (execStmt o cat s).err = stmtErr o s := by
  cases s with
  | dropT tn =>
    by_cases h : o (PStmt.dropT tn) = true <;> simp [execStmt, stmtErr, h] <;> split <;> rfl
  | createT n d =>
    by_cases h : o (PStmt.createT n d) = true <;> simp [execStmt, stmtErr, h] <;> split <;> rfl
  | createI n d =>
    by_cases h : o (PStmt.createI n d) = true <;> simp [execStmt, stmtErr, h] <;> split <;> rfl
  | createTr table event column key =>
    simp only [execStmt, stmtErr]
    exact createTimeTrigger_err o cat table event column key

theorem execStmts_err_agree (o o' : Oracle)
    (hag : ∀ s, nonTrigger s = true → o s = o' s) :
    ∀ (l : List PStmt) (cat cat' : Catalog),
      (execStmts o cat l).err = (execStmts o' cat' l).err := by
  intro l
  induction l with
  | nil => intro cat cat'; rfl
  | cons s rest ih =>
    intro cat cat'
    have he : (execStmt o cat s).err = (execStmt o' cat' s).err := by
      rw [execStmt_err, execStmt_err]
      cases s with
      | createTr a b c d => rfl
      | dropT tn =>
        show (if o (PStmt.dropT tn) = true then some "ExecutionError" else none)
            = (if o' (PStmt.dropT tn) = true then some "ExecutionError" else none)
        rw [hag (PStmt.dropT tn) rfl]
      | createT n d =>
        show (if o (PStmt.createT n d) = true then some "ExecutionError" else none)
            = (if o' (PStmt.createT n d) = true then some "ExecutionError" else none)
        rw [hag (PStmt.createT n d) rfl]
      | createI n d =>
        show (if o (PStmt.createI n d) = true then some "ExecutionError" else none)
            = (if o' (PStmt.createI n d) = true then some "ExecutionError" else none)
        rw [hag (PStmt.createI n d) rfl]
    cases h1 : (execStmt o cat s).err with
    | some e =>
      have h2 : (execStmt o' cat' s).err = some e := by rw [← he, h1]
      simp [execStmts, h1, h2]
    | none =>
      have h2 : (execStmt o' cat' s).err = none := by rw [← he, h1]
      simp only [execStmts, h1, h2]
      exact ih _ _

/-- Claim C2: createTimeTrigger never rejects (the catch swallows every
trigger-creation failure), and whether the whole create-table run rejects is
unchanged when the oracle is rewritten to never fail trigger statements:
trigger-creation failures cannot affect the sync outcome. -/
theorem c2_trigger_failure_swallowed :
    (∀ (o : Oracle) (cat : Catalog) (table event column key : String),
      (createTimeTrigger o cat table event column key).err = none)
    ∧ (∀ (o : Oracle) (tm : List (String × ITable)) (flag : Bool) (cat : Catalog),
      (runCreateTable o tm flag cat).err = (runCreateTable (noTrigFail o) tm flag cat).err) := by
  constructor
  · exact createTimeTrigger_err
  · intro o tm flag cat
    unfold runCreateTable
    refine execStmts_err_agree o (noTrigFail o) ?_ _ cat cat
    intro s hs
    cases s with
    | createTr a b c d => simp [nonTrigger] at hs
    | dropT tn => rfl
    | createT n d => rfl
    | createI n d => rfl

/-! ### Claim C1: running the create-table sync twice is a no-op -/

theorem execStmt_noFail_err (cat : Catalog) (s : PStmt) :
    (execStmt noFail cat s).err = none := by
  rw [execStmt_err]
  cases s <;> simp [stmtErr, noFail]

theorem catGrows_refl (c : Catalog) : catGrows c c :=
  ⟨⟨[], by simp⟩, ⟨[], by simp⟩, ⟨[], by simp⟩⟩

theorem catGrows_trans {c1 c2 c3 : Catalog} (h1 : catGrows c1 c2) (h2 : catGrows c2 c3) :
    catGrows c1 c3 := by
  obtain ⟨⟨a1, ha1⟩, ⟨b1, hb1⟩, ⟨d1, hd1⟩⟩ := h1
  obtain ⟨⟨a2, ha2⟩, ⟨b2, hb2⟩, ⟨d2, hd2⟩⟩ := h2
  refine ⟨⟨a1 ++ a2, ?_⟩, ⟨b1 ++ b2, ?_⟩, ⟨d1 ++ d2, ?_⟩⟩
  · rw [ha2, ha1, List.append_assoc]
  · rw [hb2, hb1, List.append_assoc]
  · rw [hd2, hd1, List.append_assoc]

theorem execStmt_grows (o : Oracle) (cat : Catalog) (s : PStmt) (h : isDrop s = false) :
    catGrows cat (execStmt o cat s).cat := by
  cases s with
  | dropT tn => simp [isDrop] at h
  | createT n d =>
    by_cases ho : o (PStmt.createT n d) = true
    · simp only [execStmt, ho, if_true]
      exact catGrows_refl cat
    · simp only [execStmt, ho, if_false]
      cases hl : alookup n cat.tables with
      | some v => exact catGrows_refl cat
      | none => exact ⟨⟨[(n, d)], rfl⟩, ⟨[], by simp⟩, ⟨[], by simp⟩⟩
  | createI n d =>
    by_cases ho : o (PStmt.createI n d) = true
    · simp only [execStmt, ho, if_true]
      exact catGrows_refl cat
    · simp only [execStmt, ho, if_false]
      cases hl : alookup n cat.indexes with
      | some v => exact catGrows_refl cat
      | none => exact ⟨⟨[], by simp⟩, ⟨[(n, d)], rfl⟩, ⟨[], by simp⟩⟩
  | createTr tb ev col k =>
    simp only [execStmt, createTimeTrigger, jsCatchRun, execTriggerRaw]
    by_cases ho : o (PStmt.createTr tb ev col k) = true
    · simp only [ho, if_true]
      exact catGrows_refl cat
    · simp only [ho, if_false]
      cases hl : alookup (triggerNameOf tb col) cat.triggers with
      | some v => exact catGrows_refl cat
      | none =>
        exact ⟨⟨[], by simp⟩, ⟨[], by simp⟩,
          ⟨[(triggerNameOf tb col, triggerDefOf tb ev col k)], rfl⟩⟩

theorem ensured_of_grows {c1 c2 : Catalog} (hg : catGrows c1 c2) (s : PStmt)
    (h : ensured c1 s = true) : ensured c2 s = true := by
  cases s with
  | dropT tn => rfl
  | createT n d =>
    obtain ⟨l, hl⟩ := hg.1
    simp only [ensured] at h ⊢
    rw [hl]
    exact alookup_isSome_mono n c1.tables l h
  | createI n d =>
    obtain ⟨l, hl⟩ := hg.2.1
    simp only [ensured] at h ⊢
    rw [hl]
    exact alookup_isSome_mono n c1.indexes l h
  | createTr tb ev col k =>
    obtain ⟨l, hl⟩ := hg.2.2
    simp only [ensured] at h ⊢
    rw [hl]
    exact alookup_isSome_mono (triggerNameOf tb col) c1.triggers l h

theorem execStmt_ensures (cat : Catalog) (s : PStmt) (h : isDrop s = false) :
    ensured (execStmt noFail cat s).cat s = true := by
  cases s with
  | dropT tn => simp [isDrop] at h
  | createT n d =>
    simp only [execStmt, noFail, Bool.false_eq_true, if_false, ensured]
    cases hl : alookup n cat.tables with
    | some v => simp [ensured, hl]
    | none => simp [ensured, alookup_append_self n cat.tables d hl]
  | createI n d =>
    simp only [execStmt, noFail, Bool.false_eq_true, if_false, ensured]
    cases hl : alookup n cat.indexes with
    | some v => simp [ensured, hl]
    | none => simp [ensured, alookup_append_self n cat.indexes d hl]
  | createTr tb ev col k =>
    simp only [execStmt, createTimeTrigger, jsCatchRun, execTriggerRaw, noFail,
      Bool.false_eq_true, if_false]
    cases hl : alookup (triggerNameOf tb col) cat.triggers with
    | some v => simp [ensured, hl]
    | none =>
      simp [ensured, hl,
        alookup_append_self (triggerNameOf tb col) cat.triggers (triggerDefOf tb ev col k) hl]

theorem execStmts_cons_noFail (cat : Catalog) (s : PStmt) (rest : List PStmt) :
    execStmts noFail cat (s :: rest) =
      { cat := (execStmts noFail (execStmt noFail cat s).cat rest).cat,
        ops := (execStmt noFail cat s).ops
          ++ (execStmts noFail (execStmt noFail cat s).cat rest).ops,
        err := (execStmts noFail (execStmt noFail cat s).cat rest).err } := by
  simp only [execStmts]
  rw [execStmt_noFail_err]

theorem execStmts_grows (l : List PStmt) : ∀ cat : Catalog, (∀ s ∈ l, isDrop s = false) →
    catGrows cat (execStmts noFail cat l).cat := by
  induction l with
  | nil => intro cat _; exact catGrows_refl cat
  | cons a rest ih =>
    intro cat hl
    rw [execStmts_cons_noFail]
    exact catGrows_trans (execStmt_grows noFail cat a (hl a (by simp)))
      (ih _ (fun s hs => hl s (List.mem_cons_of_mem a hs)))

theorem execStmts_ensures (l : List PStmt) : ∀ cat : Catalog, (∀ s ∈ l, isDrop s = false) →
    ∀ s ∈ l, ensured (execStmts noFail cat l).cat s = true := by
  induction l with
  | nil => intro cat _ s hs; simp at hs
  | cons a rest ih =>
    intro cat hl s hs
    rw [execStmts_cons_noFail]
    rcases List.mem_cons.mp hs with rfl | hmem
    · exact ensured_of_grows
        (execStmts_grows rest _ (fun x hx => hl x (List.mem_cons_of_mem s hx))) s
        (execStmt_ensures cat s (hl s (by simp)))
    · exact ih _ (fun x hx => hl x (List.mem_cons_of_mem a hx)) s hmem

theorem execStmt_noop (cat : Catalog) (s : PStmt) (hd : isDrop s = false)
    (he : ensured cat s = true) :
    execStmt noFail cat s = { cat := cat, ops := [], err := none } := by
  cases s with
  | dropT tn => simp [isDrop] at hd
  | createT n d =>
    simp only [ensured] at he
    obtain ⟨v, hv⟩ := Option.isSome_iff_exists.mp he
    simp [execStmt, noFail, hv]
  | createI n d =>
    simp only [ensured] at he
    obtain ⟨v, hv⟩ := Option.isSome_iff_exists.mp he
    simp [execStmt, noFail, hv]
  | createTr tb ev col k =>
    simp only [ensured] at he
    obtain ⟨v, hv⟩ := Option.isSome_iff_exists.mp he
    simp [execStmt, createTimeTrigger, jsCatchRun, execTriggerRaw, noFail, hv]

theorem execStmts_noop (l : List PStmt) : ∀ cat : Catalog, (∀ s ∈ l, isDrop s = false) →
    (∀ s ∈ l, ensured cat s = true) →
    execStmts noFail cat l = { cat := cat, ops := [], err := none } := by
  induction l with
  | nil => intro cat _ _; rfl
  | cons a rest ih =>
    intro cat hd he
    have h1 : execStmt noFail cat a = { cat := cat, ops := [], err := none } :=
      execStmt_noop cat a (hd a (by simp)) (he a (by simp))
    have h2 := ih cat (fun s hs => hd s (List.mem_cons_of_mem a hs))
      (fun s hs => he s (List.mem_cons_of_mem a hs))
    rw [execStmts_cons_noFail]
    simp [h1, h2]

theorem stmtList_no_drop (tn : String) (t : ITable) :
    ∀ s ∈ stmtList false tn t, isDrop s = false := by
  intro s hs
  cases s with
  | dropT tn' =>
    exfalso
    by_cases ht : timestampTruthy (timestampOf t) = true <;> simp [stmtList, ht] at hs
  | createT n d => rfl
  | createI n d => rfl
  | createTr a b c d => rfl

theorem plan_no_drops (tm : List (String × ITable)) :
    ∀ s ∈ planOf false tm, isDrop s = false := by
  intro s hs
  simp only [planOf, List.mem_flatMap] at hs
  obtain ⟨e, _, hs2⟩ := hs
  exact stmtList_no_drop e.1 e.2 s hs2

/-! ### Claim C3: the trigger WHERE key -/

theorem columnStep_tk (ins upd : String) (acc : BuildAcc) (e : String × ColumeOption) :
    (columnStep ins upd acc e).tk = if e.2.type = "increments" then e.1 else acc.tk := by
  simp only [columnStep]
  split <;> rfl

theorem columnStep_auto (ins upd : String) (acc : BuildAcc) (e : String × ColumeOption) :
    (columnStep ins upd acc e).auto
      = (acc.auto || (isIncrements e && !(decide (e.1 = ins) || decide (e.1 = upd)))) := by
  simp only [columnStep, isIncrements]
  split
  · rename_i h
    simp [h]
  · rename_i h
    simp only [Bool.not_eq_true] at h
    simp [h]

theorem foldl_columnStep_tk (ins upd : String) :
    ∀ (cs : List (String × ColumeOption)) (acc : BuildAcc),
      (cs.foldl (columnStep ins upd) acc).tk = (lastIncName cs).getD acc.tk := by
  intro cs
  induction cs with
  | nil => intro acc; rfl
  | cons e rest ih =>
    intro acc
    rw [List.foldl_cons, ih, columnStep_tk]
    simp only [lastIncName]
    cases h : lastIncName rest with
    | some c => simp
    | none =>
      by_cases hi : e.2.type = "increments"
      · simp [isIncrements, hi]
      · simp [isIncrements, hi]

theorem foldl_columnStep_auto (ins upd : String) :
    ∀ (cs : List (String × ColumeOption)) (acc : BuildAcc),
      (cs.foldl (columnStep ins upd) acc).auto
        = (acc.auto
            || cs.any (fun e => isIncrements e && !(decide (e.1 = ins) || decide (e.1 = upd)))) := by
  intro cs
  induction cs with
  | nil => intro acc; simp
  | cons e rest ih =>
    intro acc
    rw [List.foldl_cons, ih, columnStep_auto]
    simp [Bool.or_assoc]

theorem lastIncName_of_filter_nil :
    ∀ cs : List (String × ColumeOption), cs.filter isIncrements = [] → lastIncName cs = none := by
  intro cs
  induction cs with
  | nil => intro _; rfl
  | cons e rest ih =>
    intro h
    rw [List.filter_cons] at h
    by_cases hi : isIncrements e = true
    · simp [hi] at h
    · simp only [Bool.not_eq_true] at hi
      rw [hi] at h
      simp only [Bool.false_eq_true, if_false] at h
      simp only [lastIncName, ih h, hi]
      rfl

theorem lastIncName_of_filter_singleton :
    ∀ (cs : List (String × ColumeOption)) (e : String × ColumeOption),
      cs.filter isIncrements = [e] → lastIncName cs = some e.1 := by
  intro cs
  induction cs with
  | nil => intro e h; simp at h
  | cons c rest ih =>
    intro e h
    rw [List.filter_cons] at h
    by_cases hi : isIncrements c = true
    · rw [hi] at h
      simp only [if_true] at h
      obtain ⟨rfl, hrest⟩ := List.cons_eq_cons.mp h
      simp only [lastIncName, lastIncName_of_filter_nil rest hrest, hi]
      rfl
    · simp only [Bool.not_eq_true] at hi
      rw [hi] at h
      simp only [Bool.false_eq_true, if_false] at h
      simp only [lastIncName, ih e h]

theorem foldl_uniq_of_true {c : Prop} [Decidable c] (hc : c) :
    ∀ (us : List KeyOrKeys) (k : String),
      us.foldl (fun tk u => if c then keyFirst u else tk) k = lastUniqueFirst us k := by
  intro us
  induction us with
  | nil => intro k; rfl
  | cons u rest ih =>
    intro k
    rw [List.foldl_cons, if_pos hc]
    exact ih (keyFirst u)

theorem foldl_uniq_of_false {c : Prop} [Decidable c] (hc : ¬c) :
    ∀ (us : List KeyOrKeys) (k : String),
      us.foldl (fun tk u => if c then keyFirst u else tk) k = k := by
  intro us
  induction us with
  | nil => intro k; rfl
  | cons u rest ih =>
    intro k
    rw [List.foldl_cons, if_neg hc]
    exact ih k

/-- Structured restatement of the final `_triggerKey`. -/
theorem triggerKeyOf_eq (t : ITable) :
    triggerKeyOf t =
      (if ((columnsAcc t).auto : Bool) then (columnsAcc t).tk
       else if primaryTruthy (primaryOf t) = true then
         (match primaryOf t with | some p => keyFirst p | none => (columnsAcc t).tk)
       else lastUniqueFirst (uniqueOf t) (columnsAcc t).tk) := by
  unfold triggerKeyOf tkAfterPk
  cases hp : primaryOf t with
  | none =>
    cases ha : (columnsAcc t).auto with
    | true =>
      rw [foldl_uniq_of_false (show ¬((!primaryTruthy none && !true) = true) by decide)]
      simp [primaryTruthy]
    | false =>
      rw [foldl_uniq_of_true (show (!primaryTruthy none && !false) = true by decide)]
      simp [primaryTruthy]
  | some p =>
    cases ha : (columnsAcc t).auto with
    | true =>
      rw [foldl_uniq_of_false (show ¬((!primaryTruthy (some p) && !true) = true) by simp)]
      simp
    | false =>
      cases hpt : primaryTruthy (some p) with
      | true =>
        rw [foldl_uniq_of_false (show ¬((!true && !false) = true) by decide)]
        simp [hpt]
      | false =>
        rw [foldl_uniq_of_true (show (!false && !false) = true by decide)]
        simp [hpt]

/-- Claim C3 counterexample: a table with no primary key but a unique
constraint gets its time trigger keyed by the first column of the unique
constraint, not by rowid as the claim states for tables without a primary
key. -/
theorem c3_counterexample :
    primaryOf uniqueOnlyTable = none
    ∧ timestampTruthy (timestampOf uniqueOnlyTable) = true
    ∧ triggerKeyOf uniqueOnlyTable = "u1"
    ∧ PStmt.createTr "t" "insert" "createAt" "u1" ∈ stmtList false "t" uniqueOnlyTable
    ∧ ("u1" : String) ≠ "rowid" := by
  refine ⟨rfl, rfl, by decide, by decide, by decide⟩

/-- Claim C3 (amended): for a table with at most one auto-increment column
not named like a time-trigger column, the trigger WHERE key is: the
auto-increment column when one is declared; else the first declared
primary-key column when `primary` is truthy; else the first column of the
LAST declared unique constraint when unique constraints exist; else rowid.
With truthy timestamp configuration the run issues both an AFTER INSERT
trigger on the create column and an AFTER UPDATE trigger on the update
column, each setting that column to datetime(now, localtime) — the current
local timestamp — keyed by this WHERE key. -/
theorem c3_amended_trigger_key :
    ∀ (t : ITable) (tn : String), saneIncrements t = true →
      (triggerKeyOf t = specTriggerKey t)
      ∧ (timestampTruthy (timestampOf t) = true →
          PStmt.createTr tn "insert" (insNameOf (timestampOf t)) (triggerKeyOf t)
            ∈ stmtList false tn t
          ∧ PStmt.createTr tn "update" (updNameOf (timestampOf t)) (triggerKeyOf t)
            ∈ stmtList false tn t)
      ∧ (∀ ev col k, (triggerDefOf tn ev col k).timeExpr = TimeExpr.localDatetime
          ∧ (triggerDefOf tn ev col k).column = col) := by
  intro t tn hsane
  refine ⟨?_, ?_, fun ev col k => ⟨rfl, rfl⟩⟩
  · rw [triggerKeyOf_eq]
    cases hf : t.columns.filter isIncrements with
    | nil =>
      have hln : lastIncName t.columns = none := lastIncName_of_filter_nil t.columns hf
      have hauto : (columnsAcc t).auto = false := by
        unfold columnsAcc
        rw [foldl_columnStep_auto]
        simp only [Bool.false_or]
        rw [List.any_eq_false]
        intro e he
        have hni : isIncrements e = false := by
          by_contra hx
          simp only [Bool.not_eq_false] at hx
          have : e ∈ t.columns.filter isIncrements := List.mem_filter.mpr ⟨he, hx⟩
          rw [hf] at this
          simp at this
        simp [hni]
      have htk : (columnsAcc t).tk = "rowid" := by
        unfold columnsAcc
        rw [foldl_columnStep_tk, hln]
        rfl
      unfold specTriggerKey
      rw [hln]
      simp only [hauto, htk, Bool.false_eq_true, if_false]
      cases hp : primaryOf t with
      | none => simp [primaryTruthy]
      | some p =>
        cases hpt : primaryTruthy (some p) with
        | true => simp [hpt]
        | false => simp [hpt]
    | cons e tail =>
      have htail : tail = [] := by
        unfold saneIncrements at hsane
        rw [hf] at hsane
        cases tail with
        | nil => rfl
        | cons x xs => simp at hsane
      subst htail
      have hskip : (decide (e.1 = insNameOf (timestampOf t))
          || decide (e.1 = updNameOf (timestampOf t))) = false := by
        unfold saneIncrements at hsane
        rw [hf] at hsane
        simp only [Bool.not_eq_eq_eq_not, Bool.not_true] at hsane
        exact hsane
      have hmem : e ∈ t.columns.filter isIncrements := by rw [hf]; simp
      have hme := List.mem_filter.mp hmem
      have hauto : (columnsAcc t).auto = true := by
        unfold columnsAcc
        rw [foldl_columnStep_auto]
        refine Bool.or_eq_true_iff.mpr (Or.inr ?_)
        rw [List.any_eq_true]
        exact ⟨e, hme.1, by simp [hme.2, hskip]⟩
      have hln : lastIncName t.columns = some e.1 :=
        lastIncName_of_filter_singleton t.columns e hf
      have htk : (columnsAcc t).tk = e.1 := by
        unfold columnsAcc
        rw [foldl_columnStep_tk, hln]
        rfl
      unfold specTriggerKey
      rw [hln]
      simp [hauto, htk]
  · intro ht
    constructor
    · simp [stmtList, ht]
    · simp [stmtList, ht]

/-- Claim C3 witness: the playground table keys its triggers by the
auto-increment id column, matching the amended description. -/
theorem c3_amended_trigger_key_witness :
    saneIncrements playgroundTable = true
    ∧ triggerKeyOf playgroundTable = specTriggerKey playgroundTable
    ∧ timestampTruthy (timestampOf playgroundTable) = true
    ∧ PStmt.createTr "test" "insert" "createAt" (triggerKeyOf playgroundTable)
        ∈ stmtList false "test" playgroundTable :=
  ⟨by decide,
   (c3_amended_trigger_key playgroundTable "test" (by decide)).1,
   by decide,
   ((c3_amended_trigger_key playgroundTable "test" (by decide)).2.1 (by decide)).1⟩

/-- Claim C1: for every schema (table map), running the create-table sync a
second time against the catalog the first run produced performs zero schema
changes (empty operation list) and leaves every table, index and trigger of
the catalog exactly as the first run left them; every statement of the
second run is an if-not-exists no-op.  This is the default configuration
(dropTableBeforeInit false); the first run may start from any catalog. -/
theorem c1_second_run_no_ops :
    ∀ (tm : List (String × ITable)) (cat : Catalog),
      runCreateTable noFail tm false ((runCreateTable noFail tm false cat).cat)
        = { cat := (runCreateTable noFail tm false cat).cat, ops := [], err := none } := by
  intro tm cat
  unfold runCreateTable
  exact execStmts_noop (planOf false tm) _ (plan_no_drops tm)
    (fun s hs => execStmts_ensures (planOf false tm) cat (plan_no_drops tm) s hs)

/-! ### Claim C5: connection mutex -/

theorem tryAcquire_inv (s : MuSt) (c : Nat) (h : MuInv s) : MuInv (tryAcquire s c) := by
  unfold tryAcquire
  cases hcur : s.cur with
  | some p =>
    constructor
    · intro i j hi hj
      simp only [setClient] at hi hj
      by_cases hic : i = c
      · rw [if_pos hic] at hi; cases hi
      · rw [if_neg hic] at hi
        by_cases hjc : j = c
        · rw [if_pos hjc] at hj; cases hj
        · rw [if_neg hjc] at hj
          exact h.1 i j hi hj
    · intro hnone; cases hnone
  | none =>
    constructor
    · intro i j hi hj
      simp only [setClient] at hi hj
      by_cases hic : i = c <;> by_cases hjc : j = c
      · rw [hic, hjc]
      · rw [if_neg hjc] at hj
        exact absurd hj (h.2 hcur j)
      · rw [if_neg hic] at hi
        exact absurd hi (h.2 hcur i)
      · rw [if_neg hic] at hi
        exact absurd hi (h.2 hcur i)
    · intro hnone; cases hnone

theorem muStep_inv {s : MuSt} {a : MuAct} {s' : MuSt} (h : MuInv s)
    (hs : muStep s a = some s') : MuInv s' := by
  cases a with
  | lock c =>
    simp only [muStep] at hs
    by_cases hc : s.clients c = ClientSt.outside
    · rw [if_pos hc] at hs
      obtain rfl := Option.some_inj.mp hs
      exact tryAcquire_inv s c h
    · rw [if_neg hc] at hs; cases hs
  | wake c =>
    simp only [muStep] at hs
    by_cases hc : s.clients c = ClientSt.runnable
    · rw [if_pos hc] at hs
      obtain rfl := Option.some_inj.mp hs
      exact tryAcquire_inv s c h
    · rw [if_neg hc] at hs; cases hs
  | unlock c =>
    simp only [muStep] at hs
    by_cases hc : s.clients c = ClientSt.holding
    · rw [if_pos hc] at hs
      cases hcur : s.cur with
      | some p =>
        rw [hcur] at hs
        obtain rfl := Option.some_inj.mp hs
        have hnone : ∀ i,
            (setClient
              (fun n => if s.clients n = ClientSt.waiting p then ClientSt.runnable
                        else s.clients n)
              c ClientSt.outside) i ≠ ClientSt.holding := by
          intro i
          simp only [setClient]
          by_cases hic : i = c
          · rw [if_pos hic]; intro hx; cases hx
          · rw [if_neg hic]
            by_cases hw : s.clients i = ClientSt.waiting p
            · rw [if_pos hw]; intro hx; cases hx
            · rw [if_neg hw]
              intro hh
              exact hic (h.1 i c hh hc)
        exact ⟨fun i j hi _ => absurd hi (hnone i), fun _ i => hnone i⟩
      | none =>
        exact absurd hc (h.2 hcur c)
    · rw [if_neg hc] at hs; cases hs

theorem muInit_inv : MuInv muInit := by
  constructor
  · intro i j hi; cases hi
  · intro _ i hx; cases hx

theorem runTrace_inv : ∀ (acts : List MuAct) (s : MuSt), MuInv s →
    ∀ s', runTrace s acts = some s' → MuInv s' := by
  intro acts
  induction acts with
  | nil =>
    intro s h s' hs
    obtain rfl := Option.some_inj.mp hs
    exact h
  | cons a rest ih =>
    intro s h s' hs
    simp only [runTrace] at hs
    cases hstep : muStep s a with
    | none => rw [hstep] at hs; cases hs
    | some s1 =>
      rw [hstep] at hs
      exact ih s1 (muStep_inv h hstep) s' hs

/-- Claim C5 (amended): over every interleaving of lock / unlock / wake
steps from the initial state, at most one client holds the connection at a
time (mutual exclusion), and a lock call made while the connection is held
leaves the caller waiting on the current promise, suspended until a release.
Grant order, however, is NOT first-come-first-served by arrival — see the
counterexample, where a later arrival barges in between a release and the
waiters resuming. -/
theorem c5_mutual_exclusion :
    (∀ (acts : List MuAct) (s' : MuSt), runTrace muInit acts = some s' →
      ∀ i j, s'.clients i = ClientSt.holding → s'.clients j = ClientSt.holding → i = j)
    ∧ (∀ (s : MuSt) (c p : Nat), s.cur = some p →
      (tryAcquire s c).clients c = ClientSt.waiting p) := by
  constructor
  · intro acts s' hs
    exact (runTrace_inv acts muInit muInit_inv s' hs).1
  · intro s c p hp
    unfold tryAcquire
    rw [hp]
    simp [setClient]

/-- The state after client 0 locks the free mutex. -/
def muW1 : MuSt := tryAcquire muInit 0

/-- Claim C5 witness: a one-step trace reaching a state with a single
holder, and a lock attempt against a held mutex that ends up waiting. -/
theorem c5_mutual_exclusion_witness :
    runTrace muInit [MuAct.lock 0] = some muW1
    ∧ (0 : Nat) = 0
    ∧ muW1.cur = some 0
    ∧ (tryAcquire muW1 1).clients 1 = ClientSt.waiting 0 :=
  ⟨rfl, c5_mutual_exclusion.1 [MuAct.lock 0] muW1 rfl 0 0 rfl rfl, rfl,
   c5_mutual_exclusion.2 muW1 1 0 rfl⟩

/-- Claim C5 counterexample (FIFO): client 1 queues while client 0 holds;
after client 0 releases, client 2 arrives and is granted the connection
while client 1 is still only runnable; continuing the trace, client 1 is
granted only after client 2 releases.  Grant order 0, 2, 1 violates
first-come-first-served arrival order 0, 1, 2. -/
theorem c5_counterexample_fifo :
    (runTrace muInit muBargeTrace).map (fun s => (s.clients 1, s.clients 2))
        = some (ClientSt.runnable, ClientSt.holding)
    ∧ (runTrace muInit (muBargeTrace ++ [MuAct.unlock 2, MuAct.wake 1])).map
        (fun s => (s.clients 1, s.clients 2))
        = some (ClientSt.holding, ClientSt.outside) := by
  exact ⟨rfl, rfl⟩

/-! ### Claim C8: destroy leaves an in-flight query pending forever -/

/-- Claim C8 (code bug): after init, a query in flight, and a completed
destroy, the connection still holds its emitter reference (so the reject
guard in executeQuery cannot fire), the query promise is still pending, the
worker can no longer emit the run response, and no continuation of the
trace ever settles the promise — the in-flight query hangs instead of being
rejected.  The last conjunct shows the intended behaviour the guard
expresses: had destroy cleared the connection reference, a later
executeQuery would reject with the destroyed error. -/
theorem c8_destroyed_query_never_settles :
    runTraceT tInit [TAct.execQuery, TAct.destroyDrv] = some afterDestroy
    ∧ afterDestroy.connMitt = true
    ∧ afterDestroy.runPromise = some PromiseSt.pending
    ∧ tStep afterDestroy TAct.workerRun = none
    ∧ (∀ (acts : List TAct) (s' : TransportSt),
        runTraceT afterDestroy acts = some s' → s'.runPromise = some PromiseSt.pending)
    ∧ tStep { workerAlive := false, handlers := [], driverMitt := false, connMitt := false,
              runPromise := none } TAct.execQuery
        = some { workerAlive := false, handlers := [], driverMitt := false, connMitt := false,
                 runPromise := some PromiseSt.rejectedDestroyed } := by
  refine ⟨by decide, rfl, rfl, rfl, ?_, by decide⟩
  intro acts s' hs
  cases acts with
  | nil =>
    obtain rfl := Option.some_inj.mp hs
    rfl
  | cons a rest =>
    exfalso
    cases a <;> simp [runTraceT, tStep, afterDestroy] at hs

/-- Claim C8 witness at the empty continuation trace. -/
theorem c8_destroyed_query_never_settles_witness :
    runTraceT afterDestroy [] = some afterDestroy
    ∧ afterDestroy.runPromise = some PromiseSt.pending :=
  ⟨rfl, c8_destroyed_query_never_settles.2.2.2.2.1 [] afterDestroy rfl⟩

end KST
